import Mathlib

/-!
Verification of the quadrature-based predictive deep GP module
(gpytorch/models/deep_gps/predictive_deep_gp.py).

The development shallowly embeds the tensor-level computations of the file:
the quadrature grid construction of AbstractPredictiveDeepGPLayer.quad_grid,
the quadrature-perturbed input computation of AbstractPredictiveDeepGPLayer.call,
the KL aggregation of the internal DeepGP variational strategy, and the
log-marginal combination of DeepPredictiveGaussianLikelihood.  Machine floats
are modelled by real numbers; tensors are modelled by lists or by
size-annotated index functions with torch-style broadcasting.
-/

namespace PredictiveDeepGP

/-- Cartesian product of a list of lists, in the order produced by
itertools.product: the last factor varies fastest, so tuples are enumerated
in lexicographic order of their factor indices. -/
def cartProd {α : Type} : List (List α) → List (List α)
  | [] => [[]]
  | c :: cs => c.flatMap (fun x => (cartProd cs).map (fun p => x :: p))

/-- Modelled torch tensor transpose: column d of the row-major matrix, read
with the default value 0 outside the stored row (well-formed matrices never
reach the default). -/
def colD (d : ℕ) (rows : List (List ℝ)) : List ℝ :=
  rows.map (fun r => r.getD d 0)

/-- Modelled xi.t() for a matrix with rowLen columns: the list of its columns. -/
def transposeM (rowLen : ℕ) (rows : List (List ℝ)) : List (List ℝ) :=
  (List.range rowLen).map (fun d => colD d rows)

/-- Elementwise difference of two matrices, modelling the tensor subtraction
xi - xi.flip(dims=[0]) once the flip is expressed as List.reverse. -/
def matSub (a b : List (List ℝ)) : List (List ℝ) :=
  List.zipWith (List.zipWith (fun x y => x - y)) a b

/-- The grid value computed inside quad_grid for the flipgrid and freegrid
branches: torch.stack([torch.cat([p.unsqueeze(-1) for p in xi]) for xi in
product(*xi.t())]), i.e. the Cartesian product of the columns of the
(possibly flip-transformed) parameter matrix. -/
def quadGridRes (rowLen : ℕ) (xi : List (List ℝ)) : List (List ℝ) :=
  cartProd (transposeM rowLen xi)

section CartProdLemmas

theorem length_cartProd {α : Type} (ls : List (List α)) :
    (cartProd ls).length = (ls.map List.length).prod := by
  induction ls with
  | nil => rfl
  | cons c cs ih =>
      simp only [cartProd, List.length_flatMap, List.map_map]
      have h : ∀ x : α, ((cartProd cs).map (fun p => x :: p)).length = (cs.map List.length).prod := by
        intro x
        simp [ih]
      calc (c.map (fun x => ((cartProd cs).map (fun p => x :: p)).length)).sum
          = (c.map (fun _ => (cs.map List.length).prod)).sum := by
            congr 1
            exact List.map_congr_left (fun x _ => h x)
        _ = c.length * (cs.map List.length).prod := by
            simp [List.sum_replicate, smul_eq_mul]
        _ = (((c :: cs).map List.length).prod) := by simp

theorem mem_cartProd {α : Type} {p : List α} {ls : List (List α)} :
    p ∈ cartProd ls ↔ List.Forall₂ (fun x c => x ∈ c) p ls := by
  induction ls generalizing p with
  | nil =>
      simp only [cartProd, List.mem_singleton, List.forall₂_nil_right_iff]
  | cons c cs ih =>
      constructor
      · intro hp
        simp only [cartProd, List.mem_flatMap, List.mem_map] at hp
        obtain ⟨x, hx, q, hq, rfl⟩ := hp
        exact List.Forall₂.cons hx (ih.mp hq)
      · intro hp
        cases hp with
        | cons hx hq =>
            simp only [cartProd, List.mem_flatMap, List.mem_map]
            exact ⟨_, hx, _, ih.mpr hq, rfl⟩

theorem length_of_mem_cartProd {α : Type} {p : List α} {ls : List (List α)}
    (hp : p ∈ cartProd ls) : p.length = ls.length :=
  (mem_cartProd.mp hp).length_eq

theorem length_cartProd_uniform {α : Type} {cols : List (List α)} {Q : ℕ}
    (hcols : ∀ c ∈ cols, c.length = Q) :
    (cartProd cols).length = Q ^ cols.length := by
  rw [length_cartProd]
  have h : cols.map List.length = List.replicate cols.length Q := by
    apply List.eq_replicate_iff.mpr
    refine ⟨by simp, ?_⟩
    intro b hb
    simp only [List.mem_map] at hb
    obtain ⟨c, hc, rfl⟩ := hb
    exact hcols c hc
  rw [h, List.prod_replicate]

theorem getElem?_flatMap_const {α β : Type} (l : List α) (f : α → List β) (L : ℕ)
    (hL : 0 < L) (hf : ∀ x ∈ l, (f x).length = L) (i : ℕ) (hi : i < l.length * L)
    (dA : α) :
    (l.flatMap f)[i]? = (f (l.getD (i / L) dA))[i % L]? := by
  induction l generalizing i with
  | nil => simp at hi
  | cons a as ih =>
      have hfa : (f a).length = L := hf a (List.mem_cons_self a as)
      rw [List.flatMap_cons]
      by_cases hcase : i < L
      · rw [List.getElem?_append, if_pos (by rw [hfa]; exact hcase)]
        rw [Nat.div_eq_of_lt hcase, Nat.mod_eq_of_lt hcase, List.getD_cons_zero]
      · push_neg at hcase
        obtain ⟨j, rfl⟩ : ∃ j, i = j + L := ⟨i - L, (Nat.sub_add_cancel hcase).symm⟩
        rw [List.getElem?_append_right (by rw [hfa]; omega)]
        rw [hfa]
        have hj : j < as.length * L := by
          simp only [List.length_cons, Nat.succ_mul] at hi
          omega
        rw [show j + L - L = j by omega]
        rw [ih (fun x hx => hf x (List.mem_cons_of_mem a hx)) j hj]
        rw [Nat.add_div_right j hL, Nat.add_mod_right j L, List.getD_cons_succ]

/-- Dividing out a digit of a mixed-radix number below the modulus is not
affected by first reducing modulo a higher power. -/
theorem mod_pow_div_mod (i Q a b : ℕ) (hQ : 0 < Q) (hab : a < b) :
    i % Q ^ b / Q ^ a % Q = i / Q ^ a % Q := by
  have hQa : 0 < Q ^ a := pow_pos hQ a
  have h1 : Q ^ b = Q ^ a * Q ^ (b - a) := by
    rw [← pow_add]
    congr 1
    omega
  have h2 : Q ^ (b - a) = Q * Q ^ (b - a - 1) := by
    rw [← pow_succ']
    congr 1
    omega
  have key : ∀ s r : ℕ, (Q ^ b * s + r) / Q ^ a % Q = r / Q ^ a % Q := by
    intro s r
    rw [h1, mul_assoc, Nat.mul_add_div hQa, h2, mul_assoc, Nat.mul_add_mod]
  conv_rhs => rw [← Nat.div_add_mod i (Q ^ b)]
  rw [key]

/-- The Cartesian product enumerates the factor-index tuples lexicographically:
point i, coordinate d, is entry (i div Q ^ (T - 1 - d)) mod Q of factor d. -/
theorem cartProd_getElem? {α : Type} (cols : List (List α)) (Q : ℕ) (hQ : 0 < Q)
    (hcols : ∀ c ∈ cols, c.length = Q) (i : ℕ) (hi : i < Q ^ cols.length) (dA : α) :
    (cartProd cols)[i]? = some ((List.range cols.length).map
      (fun d => (cols.getD d []).getD (i / Q ^ (cols.length - 1 - d) % Q) dA)) := by
  induction cols generalizing i with
  | nil =>
      simp only [List.length_nil, pow_zero, Nat.lt_one_iff] at hi
      subst hi
      simp [cartProd]
  | cons c cs ih =>
      have hLc : c.length = Q := hcols c (List.mem_cons_self c cs)
      have hLpos : 0 < Q ^ cs.length := pow_pos hQ cs.length
      have hi' : i < c.length * Q ^ cs.length := by
        rw [hLc, mul_comm]
        simpa [pow_succ] using hi
      have hf : ∀ x ∈ c, ((cartProd cs).map (fun p => x :: p)).length = Q ^ cs.length := by
        intro x _
        rw [List.length_map]
        exact length_cartProd_uniform (fun d hd => hcols d (List.mem_cons_of_mem c hd))
      rw [show cartProd (c :: cs) = c.flatMap (fun x => (cartProd cs).map (fun p => x :: p))
        from rfl]
      rw [getElem?_flatMap_const _ _ (Q ^ cs.length) hLpos hf i hi' dA]
      rw [List.getElem?_map]
      rw [ih (fun d hd => hcols d (List.mem_cons_of_mem c hd)) (i % Q ^ cs.length)
        (Nat.mod_lt _ hLpos)]
      have hdivQ : i / Q ^ cs.length < Q := by
        rw [Nat.div_lt_iff_lt_mul hLpos, mul_comm]
        simpa [pow_succ] using hi
      simp only [Option.map_some', Option.some.injEq, List.length_cons]
      rw [List.range_succ_eq_map, List.map_cons, List.map_map]
      congr 1
      · rw [List.getD_cons_zero]
        rw [show cs.length + 1 - 1 - 0 = cs.length by omega]
        rw [Nat.mod_eq_of_lt hdivQ]
      · apply List.map_congr_left
        intro d hd
        rw [List.mem_range] at hd
        simp only [Function.comp]
        rw [List.getD_cons_succ]
        rw [show cs.length + 1 - 1 - (d + 1) = cs.length - 1 - d by omega]
        rw [mod_pow_div_mod i Q (cs.length - 1 - d) cs.length hQ (by omega)]

end CartProdLemmas

section MapRangeLemmas

theorem getD_map_range {α : Type} (n d : ℕ) (f : ℕ → α) (dA : α) (hd : d < n) :
    ((List.range n).map f).getD d dA = f d := by
  rw [List.getD_eq_getElem?_getD, List.getElem?_map, List.getElem?_range hd]
  rfl

end MapRangeLemmas

/-- The three grid construction strategies accepted by
AbstractPredictiveDeepGPLayer.__init__. -/
inductive GridStrategy where
  | flipgrid
  | freegrid
  | freeform
deriving DecidableEq

/-- The state of an AbstractPredictiveDeepGPLayer that the grid construction
and the call validation read: the quadrature order num_sample_sites, the
sample-site dimensionality, the strategy, the learnable parameter xi stored
as a num_sample_sites x sample_site_dims matrix, and the declared input
dimensionality of the layer. -/
structure Layer where
  num_sample_sites : ℕ
  sample_site_dims : ℕ
  grid_strategy : GridStrategy
  xi : List (List ℝ)
  input_dims : ℕ

/-- The parameter matrix whose columns feed the Cartesian product inside
quad_grid: for flipgrid the read-time transform xi - xi.flip(dims=[0]),
for the other strategies xi itself. -/
def realizedXi (l : Layer) : List (List ℝ) :=
  match l.grid_strategy with
  | GridStrategy.flipgrid => matSub l.xi l.xi.reverse
  | GridStrategy.freegrid => l.xi
  | GridStrategy.freeform => l.xi

/-- Models the Python attribute access self.self that the two assertions in
quad_grid perform: the layer object has no attribute named self, so the
access raises AttributeError. -/
def layerGetAttrSelf (_l : Layer) : Except String Layer :=
  Except.error "AttributeError: AbstractPredictiveDeepGPLayer object has no attribute self"

/-- Models the assert in quad_grid: res.size(-2) == math.pow(self.num_sample_sites,
self.self.sample_site_dims) and res.size(-1) == self.self.sample_site_dims.
Both comparisons read self.self, so evaluating the assertion condition already
raises before the size comparison can be made. -/
def gridSizeAssert (l : Layer) (res : List (List ℝ)) : Except String (List (List ℝ)) :=
  (layerGetAttrSelf l).bind (fun inner1 =>
    (layerGetAttrSelf l).bind (fun inner2 =>
      if res.length = l.num_sample_sites ^ inner1.sample_site_dims
          ∧ (res.headD []).length = inner2.sample_site_dims
      then Except.ok res
      else Except.error "AssertionError"))

/-- The quad_grid property of AbstractPredictiveDeepGPLayer: for flipgrid the
flip-subtracted parameter feeds the Cartesian product, for freegrid the raw
parameter does, and both branches then run the (defective) size assertion;
the freeform branch returns the learnable tensor directly. -/
def quadGridProp (l : Layer) : Except String (List (List ℝ)) :=
  match l.grid_strategy with
  | GridStrategy.flipgrid =>
      gridSizeAssert l (quadGridRes l.sample_site_dims (matSub l.xi l.xi.reverse))
  | GridStrategy.freegrid =>
      gridSizeAssert l (quadGridRes l.sample_site_dims l.xi)
  | GridStrategy.freeform => Except.ok l.xi

section GridLemmas

theorem getD_transposeM (T : ℕ) (y : List (List ℝ)) (d : ℕ) (hd : d < T) :
    (transposeM T y).getD d [] = colD d y :=
  getD_map_range T d (fun e => colD e y) [] hd

theorem length_colD (d : ℕ) (y : List (List ℝ)) : (colD d y).length = y.length := by
  simp [colD]

/-- The grid value computed from any parameter matrix with Q rows: it has
Q ^ T points, every point has T coordinates, and coordinate d of point i is
entry (i div Q ^ (T - 1 - d)) mod Q of the per-dimension vector d. -/
theorem quadGridRes_spec (Q T : ℕ) (y : List (List ℝ)) (i d : ℕ)
    (hQ : 1 ≤ Q) (hlen : y.length = Q) (hi : i < Q ^ T) (hd : d < T) :
    (quadGridRes T y).length = Q ^ T ∧
    ((quadGridRes T y).getD i []).length = T ∧
    ((quadGridRes T y).getD i []).getD d 0
      = (colD d y).getD (i / Q ^ (T - 1 - d) % Q) 0 := by
  have hcl : (transposeM T y).length = T := by simp [transposeM]
  have hcols : ∀ c ∈ transposeM T y, c.length = Q := by
    intro c hc
    simp only [transposeM, List.mem_map] at hc
    obtain ⟨e, _, rfl⟩ := hc
    rw [length_colD, hlen]
  have hi' : i < Q ^ (transposeM T y).length := by rw [hcl]; exact hi
  have hget := cartProd_getElem? (transposeM T y) Q hQ hcols i hi' 0
  have hpoint : (quadGridRes T y).getD i []
      = (List.range (transposeM T y).length).map
          (fun e => ((transposeM T y).getD e []).getD
            (i / Q ^ ((transposeM T y).length - 1 - e) % Q) 0) := by
    rw [quadGridRes, List.getD_eq_getElem?_getD, hget]
    rfl
  refine ⟨?_, ?_, ?_⟩
  · rw [quadGridRes, length_cartProd_uniform hcols, hcl]
  · rw [hpoint, List.length_map, List.length_range, hcl]
  · rw [hpoint]
    have hd' : d < (transposeM T y).length := by rw [hcl]; exact hd
    rw [getD_map_range _ _ _ _ hd']
    rw [hcl, getD_transposeM T y d hd]

theorem length_matSub_self_reverse (a : List (List ℝ)) :
    (matSub a a.reverse).length = a.length := by
  simp [matSub]

end GridLemmas

/-- A concrete freegrid layer used to instantiate the grid-shape theorem. -/
def witnessLayerC2 : Layer :=
  { num_sample_sites := 2, sample_site_dims := 2, grid_strategy := GridStrategy.freegrid,
    xi := [[1, 2], [3, 4]], input_dims := 2 }

/-- A concrete flipgrid layer with the default order 3 and one sample-site
dimension, used to exercise the quad_grid read. -/
def layerC3 : Layer :=
  { num_sample_sites := 3, sample_site_dims := 1, grid_strategy := GridStrategy.flipgrid,
    xi := [[1], [0], [-1]], input_dims := 1 }

/-- A concrete freeform layer with order 2 and three sample-site dimensions. -/
def witnessLayerC9 : Layer :=
  { num_sample_sites := 2, sample_site_dims := 3, grid_strategy := GridStrategy.freeform,
    xi := [[0, 0, 0], [1, 2, 3]], input_dims := 3 }

/-- C2: for a flipgrid or freegrid layer with order Q >= 1 and sample-site
dimensionality T >= 1, the grid value computed inside the quad_grid read
(the value the property would return, were its assertion not defective,
see C3) is the full Cartesian product of the T per-dimension vectors of
length Q, in lexicographic order: it has Q ^ T points, point i has T
coordinates, and its coordinate d is entry (i div Q ^ (T - 1 - d)) mod Q of
per-dimension vector d. -/
theorem claim_C2_quad_grid_cartesian (l : Layer) (i d : ℕ)
    (hs : l.grid_strategy = GridStrategy.flipgrid ∨ l.grid_strategy = GridStrategy.freegrid)
    (hQ : 1 ≤ l.num_sample_sites) (_hT : 1 ≤ l.sample_site_dims)
    (hlen : l.xi.length = l.num_sample_sites)
    (hi : i < l.num_sample_sites ^ l.sample_site_dims) (hd : d < l.sample_site_dims) :
    (quadGridRes l.sample_site_dims (realizedXi l)).length
        = l.num_sample_sites ^ l.sample_site_dims ∧
    ((quadGridRes l.sample_site_dims (realizedXi l)).getD i []).length
        = l.sample_site_dims ∧
    ((quadGridRes l.sample_site_dims (realizedXi l)).getD i []).getD d 0
        = (colD d (realizedXi l)).getD
            (i / l.num_sample_sites ^ (l.sample_site_dims - 1 - d) % l.num_sample_sites) 0 := by
  have hy : (realizedXi l).length = l.num_sample_sites := by
    rcases hs with hs | hs
    · rw [realizedXi, hs, length_matSub_self_reverse, hlen]
    · rw [realizedXi, hs, hlen]
  exact quadGridRes_spec l.num_sample_sites l.sample_site_dims (realizedXi l) i d hQ hy hi hd

/-- Witness for C2 at a concrete freegrid layer with Q = 2, T = 2, point 1,
coordinate 1. -/
theorem claim_C2_quad_grid_cartesian_witness :
    (quadGridRes 2 (realizedXi witnessLayerC2)).length = 2 ^ 2 ∧
    ((quadGridRes 2 (realizedXi witnessLayerC2)).getD 1 []).length = 2 ∧
    ((quadGridRes 2 (realizedXi witnessLayerC2)).getD 1 []).getD 1 0
        = (colD 1 (realizedXi witnessLayerC2)).getD (1 / 2 ^ (2 - 1 - 1) % 2) 0 :=
  claim_C2_quad_grid_cartesian witnessLayerC2 1 1 (Or.inr rfl) (by decide) (by decide)
    rfl (by decide) (by decide)

/-- C3: reading quad_grid on a flipgrid (or freegrid) layer does not complete:
the assertion evaluates self.self.sample_site_dims and raises AttributeError,
although the size check the assertion intends (with self.sample_site_dims,
as the comment in __init__ documents) does hold of the computed grid value:
here 3 ^ 1 points of 1 coordinate each. -/
theorem claim_C3_assert_attribute_error :
    quadGridProp layerC3
      = Except.error "AttributeError: AbstractPredictiveDeepGPLayer object has no attribute self" ∧
    (quadGridRes layerC3.sample_site_dims (realizedXi layerC3)).length
        = layerC3.num_sample_sites ^ layerC3.sample_site_dims ∧
    ((quadGridRes layerC3.sample_site_dims (realizedXi layerC3)).headD []).length
        = layerC3.sample_site_dims :=
  ⟨rfl, rfl, rfl⟩

/-- C9: the freeform branch of quad_grid bypasses the Cartesian product and
the assertion and returns the learnable Q x T tensor directly: the grid has
exactly Q points and every point has T coordinates. -/
theorem claim_C9_freeform_bypass (l : Layer) (p : List ℝ)
    (hs : l.grid_strategy = GridStrategy.freeform)
    (hlen : l.xi.length = l.num_sample_sites)
    (hrows : ∀ r ∈ l.xi, r.length = l.sample_site_dims)
    (hp : p ∈ l.xi) :
    quadGridProp l = Except.ok l.xi ∧
    l.xi.length = l.num_sample_sites ∧
    p.length = l.sample_site_dims := by
  refine ⟨?_, hlen, hrows p hp⟩
  rw [quadGridProp, hs]

/-- Witness for C9 at a concrete freeform layer with Q = 2, T = 3, together
with the fact that there Q differs from Q ^ T. -/
theorem claim_C9_freeform_bypass_witness :
    (quadGridProp witnessLayerC9 = Except.ok witnessLayerC9.xi ∧
     witnessLayerC9.xi.length = 2 ∧
     ([(0 : ℝ), 0, 0]).length = 3) ∧ (2 : ℕ) ≠ 2 ^ 3 := by
  constructor
  · refine claim_C9_freeform_bypass witnessLayerC9 [0, 0, 0] rfl rfl ?_ ?_
    · intro r hr
      rcases List.mem_cons.mp hr with rfl | hr
      · rfl
      rcases List.mem_cons.mp hr with rfl | hr
      · rfl
      exact absurd hr (List.not_mem_nil r)
    · exact List.mem_cons_self _ _
  · norm_num

section FlipSymmetry

theorem zipWith_sub_reverse_antisym (c : List ℝ) :
    (List.zipWith (fun x y => x - y) c c.reverse).map (fun v => -v)
      = (List.zipWith (fun x y => x - y) c c.reverse).reverse := by
  rw [List.reverse_zipWith (List.length_reverse c).symm, List.reverse_reverse]
  rw [List.map_zipWith]
  simp only [neg_sub]
  exact (List.zipWith_comm (fun x y => x - y) c.reverse c).symm

theorem neg_mem_zipWith_sub_reverse (c : List ℝ) (v : ℝ)
    (hv : v ∈ List.zipWith (fun x y => x - y) c c.reverse) :
    -v ∈ List.zipWith (fun x y => x - y) c c.reverse := by
  have h : -v ∈ (List.zipWith (fun x y => x - y) c c.reverse).map (fun v => -v) :=
    List.mem_map_of_mem _ hv
  rw [zipWith_sub_reverse_antisym] at h
  exact List.mem_reverse.mp h

theorem getD_zipWith_sub (r s : List ℝ) (d : ℕ) (hr : d < r.length) (hs : d < s.length) :
    (List.zipWith (fun x y => x - y) r s).getD d 0 = r.getD d 0 - s.getD d 0 := by
  rw [List.getD_eq_getElem _ _ (by rw [List.length_zipWith]; omega),
      List.getElem_zipWith,
      List.getD_eq_getElem _ _ hr, List.getD_eq_getElem _ _ hs]

theorem colD_matSub (a b : List (List ℝ)) (d : ℕ)
    (hlen : a.length = b.length)
    (ha : ∀ r ∈ a, d < r.length) (hb : ∀ s ∈ b, d < s.length) :
    colD d (matSub a b)
      = List.zipWith (fun x y => x - y) (colD d a) (colD d b) := by
  unfold colD matSub
  rw [List.map_zipWith, List.zipWith_map]
  apply List.zipWith_congr
  apply List.forall₂_of_length_eq_of_get hlen
  intro i h1 h2
  exact getD_zipWith_sub _ _ d (ha _ (a.get_mem i h1)) (hb _ (b.get_mem i h2))

theorem colD_matSub_self_reverse (xi : List (List ℝ)) (T d : ℕ)
    (hrows : ∀ r ∈ xi, r.length = T) (hd : d < T) :
    colD d (matSub xi xi.reverse)
      = List.zipWith (fun x y => x - y) (colD d xi) (colD d xi).reverse := by
  rw [colD_matSub xi xi.reverse d (List.length_reverse xi).symm
        (fun r hr => by rw [hrows r hr]; exact hd)
        (fun s hs => by rw [hrows s (List.mem_reverse.mp hs)]; exact hd)]
  congr 1
  unfold colD
  exact List.map_reverse _ _

theorem forall₂_mem_map_neg {p : List ℝ} {cols : List (List ℝ)}
    (h : List.Forall₂ (fun x c => x ∈ c) p cols) :
    (∀ c ∈ cols, ∀ v ∈ c, -v ∈ c) →
      List.Forall₂ (fun x c => x ∈ c) (p.map (fun v => -v)) cols := by
  induction h with
  | nil => intro _; exact List.Forall₂.nil
  | cons hab h ih =>
      intro hneg
      refine List.Forall₂.cons ?_ (ih ?_)
      · exact hneg _ (List.mem_cons_self _ _) _ hab
      · intro c hc v hv
        exact hneg c (List.mem_cons_of_mem _ hc) v hv

end FlipSymmetry

/-- A concrete flipgrid layer whose parameter equals the initial value
0.5 * abscissae replicated across one dimension, with abscissae [1, 0, -1]. -/
def witnessLayerC8 : Layer :=
  { num_sample_sites := 3, sample_site_dims := 1, grid_strategy := GridStrategy.flipgrid,
    xi := [1, 0, -1].map (fun x => List.replicate 1 (0.5 * x)), input_dims := 1 }

/-- C8: for a flipgrid layer whose parameter xi has its initial form, 0.5
times a per-dimension abscissae vector replicated across the T sample-site
dimensions, the realized grid obtained from the read-time flip-subtraction
xi - xi.flip(dims=[0]) is symmetric about zero: the negation of every grid
point is again a grid point.  (The proof uses only the flip-subtraction
structure, so it covers the Gauss-Hermite initial abscissae in particular.) -/
theorem claim_C8_flipgrid_symmetric (l : Layer) (a : List ℝ) (p : List ℝ)
    (hs : l.grid_strategy = GridStrategy.flipgrid)
    (hxi : l.xi = a.map (fun x => List.replicate l.sample_site_dims (0.5 * x)))
    (hp : p ∈ quadGridRes l.sample_site_dims (realizedXi l)) :
    p.map (fun v => -v) ∈ quadGridRes l.sample_site_dims (realizedXi l) := by
  have hry : realizedXi l = matSub l.xi l.xi.reverse := by rw [realizedXi, hs]
  have hrows : ∀ r ∈ l.xi, r.length = l.sample_site_dims := by
    rw [hxi]
    intro r hr
    simp only [List.mem_map] at hr
    obtain ⟨x, _, rfl⟩ := hr
    simp
  rw [hry, quadGridRes, mem_cartProd] at hp ⊢
  apply forall₂_mem_map_neg hp
  intro c hc v hv
  simp only [transposeM, List.mem_map, List.mem_range] at hc
  obtain ⟨d, hd, rfl⟩ := hc
  rw [colD_matSub_self_reverse l.xi l.sample_site_dims d hrows hd] at hv ⊢
  exact neg_mem_zipWith_sub_reverse _ v hv

/-- Witness for C8: with abscissae [1, 0, -1] and T = 1 the first realized
grid point is [0.5 * 1 - 0.5 * (-1)] and its negation is in the grid. -/
theorem claim_C8_flipgrid_symmetric_witness :
    ([(0.5 * 1 - 0.5 * (-1) : ℝ)]).map (fun v => -v)
      ∈ quadGridRes 1 (realizedXi witnessLayerC8) :=
  claim_C8_flipgrid_symmetric witnessLayerC8 [1, 0, -1] [(0.5 * 1 - 0.5 * (-1) : ℝ)]
    rfl rfl (List.mem_cons_self _ _)

/-! The deep likelihoods.  DeepPredictiveGaussianLikelihood and
MultitaskDeepPredictiveGaussianLikelihood construct, normalize and consume
the quadrature weight grid identically, so one embedding covers both. -/

/-- Numerically stable log of the sum of exponentials, the semantics of
torch logsumexp over the real numbers. -/
noncomputable def logsumexp (l : List ℝ) : ℝ :=
  Real.log (l.map Real.exp).sum

/-- The quad_weight_grid property: the raw log-weight vector minus its own
log-sum-exp. -/
noncomputable def quadWeightGrid (raw : List ℝ) : List ℝ :=
  raw.map (fun x => x - logsumexp raw)

/-- The raw_quad_weight_grid parameter built in __init__ for the flipgrid and
freegrid strategies: the Cartesian product across dims copies of the
log-transformed Gauss-Hermite weight vector, summed across the dimension
axis (torch stack of product tuples followed by sum(dim=-1)). -/
def rawQuadWeightGrid (logw : List ℝ) (dims : ℕ) : List ℝ :=
  (cartProd (List.replicate dims logw)).map List.sum

/-- The log_marginal computation of the deep likelihoods: add the normalized
log-weight column vector (unsqueeze(-1)) to the sites x N matrix of per-site
log marginals, then log-sum-exp over the site axis (dim=-2), one scalar per
observation. -/
noncomputable def logMarginal (raw : List ℝ) (base : List (List ℝ)) : List ℝ :=
  (List.range (base.headD []).length).map (fun n =>
    logsumexp ((List.zipWith (fun ws row => row.map (fun b => ws + b))
      (quadWeightGrid raw) base).map (fun row => row.getD n 0)))

section WeightLemmas

theorem sum_exp_quadWeightGrid (l : List ℝ) (hl : l ≠ []) :
    ((quadWeightGrid l).map Real.exp).sum = 1 := by
  have hS : 0 < (l.map Real.exp).sum := by
    apply List.sum_pos
    · intro x hx
      simp only [List.mem_map] at hx
      obtain ⟨y, _, rfl⟩ := hx
      exact Real.exp_pos y
    · simpa using hl
  unfold quadWeightGrid logsumexp
  rw [List.map_map]
  have hfun : (Real.exp ∘ fun x => x - Real.log (l.map Real.exp).sum)
      = fun x => Real.exp x * ((l.map Real.exp).sum)⁻¹ := by
    funext x
    simp only [Function.comp]
    rw [Real.exp_sub, Real.exp_log hS]
    ring
  rw [hfun, List.sum_map_mul_right]
  exact mul_inv_cancel₀ (ne_of_gt hS)

theorem rawQuadWeightGrid_ne_nil (logw : List ℝ) (dims : ℕ) (hl : logw ≠ []) :
    rawQuadWeightGrid logw dims ≠ [] := by
  have hcols : ∀ c ∈ List.replicate dims logw, c.length = logw.length := by
    intro c hc
    rw [List.eq_of_mem_replicate hc]
  have hlen : (rawQuadWeightGrid logw dims).length = logw.length ^ dims := by
    rw [rawQuadWeightGrid, List.length_map, length_cartProd_uniform hcols,
      List.length_replicate]
  have hpos : 0 < logw.length := List.length_pos.mpr hl
  apply List.ne_nil_of_length_pos
  rw [hlen]
  exact pow_pos hpos dims

end WeightLemmas

/-- C4: for every constructed deep likelihood the quad_weight_grid property
equals the raw log-weights minus their log-sum-exp, and the exponentials of
the normalized log-weights sum to one (exactly, over the reals).  Both the
flipgrid/freegrid raw construction (any order with a nonempty Gauss-Hermite
log-weight vector, any dimensionality) and the freeform construction (any
nonempty free parameter vector) are covered. -/
theorem claim_C4_weight_normalization (logw free : List ℝ) (dims : ℕ)
    (hlogw : logw ≠ []) (hfree : free ≠ []) :
    quadWeightGrid (rawQuadWeightGrid logw dims)
        = (rawQuadWeightGrid logw dims).map
            (fun x => x - logsumexp (rawQuadWeightGrid logw dims)) ∧
    ((quadWeightGrid (rawQuadWeightGrid logw dims)).map Real.exp).sum = 1 ∧
    quadWeightGrid free = free.map (fun x => x - logsumexp free) ∧
    ((quadWeightGrid free).map Real.exp).sum = 1 :=
  ⟨rfl, sum_exp_quadWeightGrid _ (rawQuadWeightGrid_ne_nil logw dims hlogw),
    rfl, sum_exp_quadWeightGrid free hfree⟩

/-- Witness for C4 with the one-point log-weight vector [0] in one dimension
and the free vector [0]. -/
theorem claim_C4_weight_normalization_witness :
    quadWeightGrid (rawQuadWeightGrid [0] 1)
        = (rawQuadWeightGrid [0] 1).map
            (fun x => x - logsumexp (rawQuadWeightGrid [0] 1)) ∧
    ((quadWeightGrid (rawQuadWeightGrid [0] 1)).map Real.exp).sum = 1 ∧
    quadWeightGrid [(0 : ℝ)] = [(0 : ℝ)].map (fun x => x - logsumexp [(0 : ℝ)]) ∧
    ((quadWeightGrid [(0 : ℝ)]).map Real.exp).sum = 1 :=
  claim_C4_weight_normalization [0] [0] 1 (List.cons_ne_nil 0 []) (List.cons_ne_nil 0 [])

/-- C1: log_marginal of the deep likelihoods maps a sites x N matrix of
per-site log marginal likelihoods to one scalar per observation n, namely
the log-sum-exp over the site axis of normalized log-weight plus per-site
log marginal, the normalized log-weights being the quad_weight_grid value. -/
theorem claim_C1_log_marginal_mixture (raw : List ℝ) (base : List (List ℝ))
    (S N n : ℕ)
    (hraw : raw.length = S) (hbase : base.length = S)
    (hrows : ∀ r ∈ base, r.length = N)
    (hS : 1 ≤ S) (hn : n < N) :
    (logMarginal raw base).length = N ∧
    (logMarginal raw base).getD n 0
      = logsumexp ((List.range S).map
          (fun s => (quadWeightGrid raw).getD s 0 + (base.getD s []).getD n 0)) := by
  have hhead : (base.headD []).length = N := by
    cases base with
    | nil =>
        simp only [List.length_nil] at hbase
        omega
    | cons r rs => exact hrows r (List.mem_cons_self r rs)
  have hwlen : (quadWeightGrid raw).length = S := by
    rw [quadWeightGrid, List.length_map, hraw]
  constructor
  · rw [logMarginal, List.length_map, List.length_range, hhead]
  · have hn' : n < (base.headD []).length := by rw [hhead]; exact hn
    rw [logMarginal, getD_map_range _ _ _ _ hn']
    congr 1
    apply List.ext_getElem
    · simp [List.length_zipWith, hwlen, hbase]
    · intro i hi1 hi2
      have hiS : i < S := by
        simpa [List.length_zipWith, hwlen, hbase] using hi1
      have hiw : i < (quadWeightGrid raw).length := by rw [hwlen]; exact hiS
      have hib : i < base.length := by rw [hbase]; exact hiS
      rw [List.getElem_map, List.getElem_zipWith, List.getElem_map, List.getElem_range]
      rw [List.getD_eq_getElem _ _
        (by rw [List.length_map, hrows _ (List.getElem_mem hib)]; exact hn)]
      rw [List.getElem_map]
      rw [List.getD_eq_getElem _ _ hiw]
      rw [List.getD_eq_getElem base [] hib]
      rw [List.getD_eq_getElem _ _ (by rw [hrows _ (List.getElem_mem hib)]; exact hn)]

/-- Witness for C1 with two sites of weight 0, the per-site log marginal
matrix [[1], [2]] for a single observation. -/
theorem claim_C1_log_marginal_mixture_witness :
    (logMarginal [0, 0] [[1], [2]]).length = 1 ∧
    (logMarginal [0, 0] [[1], [2]]).getD 0 0
      = logsumexp ((List.range 2).map
          (fun s => (quadWeightGrid [0, 0]).getD s 0 + (([[1], [2]] : List (List ℝ)).getD s []).getD 0 0)) := by
  refine claim_C1_log_marginal_mixture [0, 0] [[1], [2]] 2 1 0 rfl rfl ?_ (by norm_num) (by norm_num)
  intro r hr
  rcases List.mem_cons.mp hr with rfl | hr
  · rfl
  rcases List.mem_cons.mp hr with rfl | hr
  · rfl
  exact absurd hr (List.not_mem_nil r)

/-! The composite KL aggregator.  _DeepGPVariationalStrategy.kl_divergence
walks self.model.modules() (the module and all nested submodules), keeps the
modules that are instances of ApproximateGP, and sums each of their
variational-strategy KL tensors reduced to a scalar by .sum(). -/

/-- A module tree: whether the module is an ApproximateGP, the KL tensor its
variational strategy would report (ignored for non-GP modules), and its
submodules. -/
inductive PModule where
  | mk (isGP : Bool) (kl : List ℝ) (children : List PModule)

mutual

/-- Models module.modules(): the module itself followed by every nested
submodule. -/
def allModules : PModule → List PModule
  | PModule.mk g k cs => PModule.mk g k cs :: allModulesList cs

def allModulesList : List PModule → List PModule
  | [] => []
  | m :: ms => allModules m ++ allModulesList ms

end

/-- The memoized sub_variational_strategies discovery: the KL tensors of all
nested modules that are ApproximateGP instances. -/
def subVariationalKLs (m : PModule) : List (List ℝ) :=
  (allModules m).filterMap (fun x =>
    match x with
    | PModule.mk g k _ => if g then some k else none)

/-- kl_divergence of the deep GP variational strategy: the sum over the
discovered strategies of each KL tensor reduced to a scalar by summation. -/
noncomputable def klDivergence (m : PModule) : ℝ :=
  ((subVariationalKLs m).map List.sum).sum

/-- A layer that is itself an ApproximateGP with the given KL tensor and no
further submodules. -/
def gpLeaf (kl : List ℝ) : PModule := PModule.mk true kl []

/-- The deep GP container: not itself an ApproximateGP, holding the given
ordered stack of layers as submodules. -/
def deepContainer (layers : List PModule) : PModule := PModule.mk false [] layers

section KLLemmas

theorem subVariationalKLs_container (kls : List (List ℝ)) :
    subVariationalKLs (deepContainer (kls.map gpLeaf)) = kls := by
  rw [subVariationalKLs, deepContainer, allModules]
  rw [List.filterMap_cons]
  simp only [if_neg Bool.false_ne_true]
  induction kls with
  | nil => rfl
  | cons k ks ih =>
      rw [List.map_cons, allModulesList, List.filterMap_append]
      rw [show allModules (gpLeaf k) = [gpLeaf k] from rfl]
      simp only [List.filterMap_cons, gpLeaf, List.filterMap_nil, ih]
      rfl

end KLLemmas

/-- C6: for a deep GP container holding a stack of GP layers, kl_divergence
returns the sum of the per-layer KL scalars (each layer's KL tensor reduced
by summation); in particular layers with KL tensors summing to 1.5 and 2.5
aggregate to 4.0. -/
theorem claim_C6_kl_additivity :
    (∀ kls : List (List ℝ),
      klDivergence (deepContainer (kls.map gpLeaf)) = (kls.map List.sum).sum) ∧
    klDivergence (deepContainer [gpLeaf [1.5], gpLeaf [2.5]]) = 4 := by
  have hgen : ∀ kls : List (List ℝ),
      klDivergence (deepContainer (kls.map gpLeaf)) = (kls.map List.sum).sum := by
    intro kls
    rw [klDivergence, subVariationalKLs_container]
  refine ⟨hgen, ?_⟩
  have h := hgen [[1.5], [2.5]]
  rw [show ([[1.5], [2.5]] : List (List ℝ)).map gpLeaf = [gpLeaf [1.5], gpLeaf [2.5]] from rfl] at h
  rw [h]
  norm_num

/-! The tensor computations of AbstractPredictiveDeepGPLayer.__call__.
A 2-D tensor is a pair of sizes with an index function; a 3-D tensor adds a
leading axis.  torch broadcasting of elementwise operations on aligned
shapes (every axis equal or of size one) is modelled by reading each operand
at the index modulo its own axis size: an axis of size one then repeats. -/

/-- A 2-D real tensor: sizes and an index function (only indices below the
sizes are meaningful). -/
structure Tensor2 where
  size0 : ℕ
  size1 : ℕ
  data : ℕ → ℕ → ℝ

/-- A 3-D real tensor. -/
structure Tensor3 where
  size0 : ℕ
  size1 : ℕ
  size2 : ℕ
  data : ℕ → ℕ → ℕ → ℝ

/-- Broadcast an elementwise binary operation over two 3-D tensors whose
shapes are broadcast-compatible (each axis equal or 1). -/
def bcast3 (f : ℝ → ℝ → ℝ) (a b : Tensor3) : Tensor3 where
  size0 := max a.size0 b.size0
  size1 := max a.size1 b.size1
  size2 := max a.size2 b.size2
  data := fun i j k =>
    f (a.data (i % a.size0) (j % a.size1) (k % a.size2))
      (b.data (i % b.size0) (j % b.size1) (k % b.size2))

/-- unsqueeze(-3) of an (n, t) tensor: a new leading axis of size one. -/
def unsqueezeLead (m : Tensor2) : Tensor3 :=
  { size0 := 1, size1 := m.size0, size2 := m.size1, data := fun _ i j => m.data i j }

/-- unsqueeze(-2) applied to the (sites, dim) grid: a new middle axis of
size one, giving sites x 1 x dim. -/
def unsqueezeMid (g : Tensor2) : Tensor3 :=
  { size0 := g.size0, size1 := 1, size2 := g.size1, data := fun s _ d => g.data s d }

/-- Elementwise square root, the sqrt() applied to inputs.variance. -/
noncomputable def sqrtT (v : Tensor2) : Tensor2 :=
  { size0 := v.size0, size1 := v.size1, data := fun i j => Real.sqrt (v.data i j) }

/-- The distribution branch of __call__ with expand_for_quadgrid=True:
xi_mus = mus.unsqueeze(-3), xi_sigmas = sigmas.unsqueeze(-3), qg =
quad_grid.unsqueeze(-2), xi_sigmas = xi_sigmas * qg, inputs = xi_mus +
xi_sigmas, with sigmas the elementwise square root of the variance. -/
noncomputable def quadExpandInputs (mus vars grid : Tensor2) : Tensor3 :=
  bcast3 (fun a b => a + b) (unsqueezeLead mus)
    (bcast3 (fun a b => a * b) (unsqueezeLead (sqrtT vars)) (unsqueezeMid grid))

/-- The distribution branch of __call__ with expand_for_quadgrid=False: the
unsqueezes of mus and sigmas are skipped (the caller pre-aligned them as 3-D
tensors); the grid is still unsqueezed and multiplied in. -/
def quadNoExpandInputs (mus sigmas : Tensor3) (grid : Tensor2) : Tensor3 :=
  bcast3 (fun a b => a + b) mus
    (bcast3 (fun a b => a * b) sigmas (unsqueezeMid grid))

/-- inp.unsqueeze(0).expand(self.num_sample_sites, *inp.shape): the extra
input gains a new leading axis expanded to num_sample_sites. -/
def expandOther (numSampleSites : ℕ) (inp : Tensor2) : Tensor3 :=
  { size0 := numSampleSites, size1 := inp.size0, size2 := inp.size1,
    data := fun _ i j => inp.data i j }

/-- torch.cat([a, b], dim=-1): requires all non-concatenated sizes to match,
otherwise torch raises a runtime error. -/
def catLastDim (a b : Tensor3) : Except String Tensor3 :=
  if a.size0 = b.size0 ∧ a.size1 = b.size1 then
    Except.ok
      { size0 := a.size0, size1 := a.size1, size2 := a.size2 + b.size2,
        data := fun s i k =>
          if k < a.size2 then a.data s i k else b.data s i (k - a.size2) }
  else Except.error "torch.cat: sizes of tensors must match except in the cat dimension"

/-- The other_inputs step of __call__: expand every extra input along a new
leading site axis of size num_sample_sites, then concatenate all of them to
the inputs along the feature axis. -/
def otherInputsStep (numSampleSites : ℕ) (inputs : Tensor3) (others : List Tensor2) :
    Except String Tensor3 :=
  (others.map (expandOther numSampleSites)).foldlM catLastDim inputs

/-- C5: with a distribution input of mean mus and variance vars (so sigma is
the elementwise square root of vars), expand_for_quadgrid=True yields the
tensor of shape (sites, batch, dim) whose entry (s, i, d) is
mus[i, d] + sqrt(vars[i, d]) * grid[s, d]; with expand_for_quadgrid=False
the unsqueezes are skipped and pre-aligned 3-D mus and sigmas give entry
mus[s, i, d] + sigmas[s, i, d] * grid[s, d]. -/
theorem claim_C5_perturbed_inputs (mus vars grid : Tensor2) (m3 s3 : Tensor3)
    (s i d : ℕ)
    (hv0 : vars.size0 = mus.size0) (hv1 : vars.size1 = mus.size1)
    (hg1 : grid.size1 = mus.size1)
    (hm0 : 0 < mus.size0) (_hm1 : 0 < mus.size1) (hg0 : 0 < grid.size0)
    (hs : s < grid.size0) (hi : i < mus.size0) (hd : d < mus.size1)
    (h30 : m3.size0 = grid.size0) (h31 : m3.size1 = mus.size0)
    (h32 : m3.size2 = mus.size1)
    (h40 : s3.size0 = grid.size0) (h41 : s3.size1 = mus.size0)
    (h42 : s3.size2 = mus.size1) :
    (quadExpandInputs mus vars grid).size0 = grid.size0 ∧
    (quadExpandInputs mus vars grid).size1 = mus.size0 ∧
    (quadExpandInputs mus vars grid).size2 = mus.size1 ∧
    (quadExpandInputs mus vars grid).data s i d
      = mus.data i d + Real.sqrt (vars.data i d) * grid.data s d ∧
    (quadNoExpandInputs m3 s3 grid).data s i d
      = m3.data s i d + s3.data s i d * grid.data s d := by
  have hsi : s % 1 = 0 := Nat.mod_one s
  refine ⟨?_, ?_, ?_, ?_, ?_⟩
  · simp only [quadExpandInputs, bcast3, unsqueezeLead, unsqueezeMid, sqrtT]
    omega
  · simp only [quadExpandInputs, bcast3, unsqueezeLead, unsqueezeMid, sqrtT]
    omega
  · simp only [quadExpandInputs, bcast3, unsqueezeLead, unsqueezeMid, sqrtT]
    omega
  · simp only [quadExpandInputs, bcast3, unsqueezeLead, unsqueezeMid, sqrtT, hv0, hv1, hg1]
    rw [Nat.mod_eq_of_lt hi, Nat.mod_eq_of_lt hd,
      Nat.mod_eq_of_lt (show s < max 1 grid.size0 by omega),
      Nat.mod_eq_of_lt (show i < max mus.size0 1 by omega),
      Nat.mod_eq_of_lt (show d < max mus.size1 mus.size1 by omega),
      Nat.mod_eq_of_lt hs, Nat.mod_eq_of_lt hi, Nat.mod_eq_of_lt hd]
  · simp only [quadNoExpandInputs, bcast3, unsqueezeMid, h30, h31, h32, h40, h41, h42]
    rw [Nat.mod_eq_of_lt (show s < grid.size0 by omega),
      Nat.mod_eq_of_lt (show i < mus.size0 by omega),
      Nat.mod_eq_of_lt (show d < mus.size1 by omega),
      Nat.mod_eq_of_lt (show s < max grid.size0 grid.size0 by omega),
      Nat.mod_eq_of_lt (show i < max mus.size0 1 by omega),
      Nat.mod_eq_of_lt (show d < max mus.size1 grid.size1 by omega),
      Nat.mod_eq_of_lt hs, Nat.mod_eq_of_lt hd,
      Nat.mod_eq_of_lt (show i < mus.size0 by omega),
      Nat.mod_eq_of_lt (show d < grid.size1 by omega)]

/-- Concrete mean tensor for the C5 witness. -/
def wMus : Tensor2 := { size0 := 1, size1 := 1, data := fun _ _ => 2 }

/-- Concrete variance tensor for the C5 witness. -/
def wVars : Tensor2 := { size0 := 1, size1 := 1, data := fun _ _ => 9 }

/-- Concrete one-site one-dimensional grid for the C5 witness. -/
def wGrid : Tensor2 := { size0 := 1, size1 := 1, data := fun _ _ => 3 }

/-- Concrete pre-aligned 3-D mean tensor for the C5 witness. -/
def wM3 : Tensor3 := { size0 := 1, size1 := 1, size2 := 1, data := fun _ _ _ => 5 }

/-- Concrete pre-aligned 3-D sigma tensor for the C5 witness. -/
def wS3 : Tensor3 := { size0 := 1, size1 := 1, size2 := 1, data := fun _ _ _ => 7 }

/-- Witness for C5 at 1 x 1 tensors: mean 2, variance 9, grid value 3, and
pre-aligned values 5 and 7 on the no-expand path. -/
theorem claim_C5_perturbed_inputs_witness :
    (quadExpandInputs wMus wVars wGrid).size0 = wGrid.size0 ∧
    (quadExpandInputs wMus wVars wGrid).size1 = wMus.size0 ∧
    (quadExpandInputs wMus wVars wGrid).size2 = wMus.size1 ∧
    (quadExpandInputs wMus wVars wGrid).data 0 0 0
      = wMus.data 0 0 + Real.sqrt (wVars.data 0 0) * wGrid.data 0 0 ∧
    (quadNoExpandInputs wM3 wS3 wGrid).data 0 0 0
      = wM3.data 0 0 0 + wS3.data 0 0 0 * wGrid.data 0 0 :=
  claim_C5_perturbed_inputs wMus wVars wGrid wM3 wS3 0 0 0 rfl rfl rfl
    (by decide) (by decide) (by decide) (by decide) (by decide) (by decide)
    rfl rfl rfl rfl rfl rfl

/-- The concrete flipgrid layer refuting C7: order Q = 2 with T = 2
sample-site dimensions, so the grid has Q ^ T = 4 sites while other_inputs
are expanded to num_sample_sites = 2. -/
def layerC7 : Layer :=
  { num_sample_sites := 2, sample_site_dims := 2, grid_strategy := GridStrategy.flipgrid,
    xi := [[0, 0], [1, 1]], input_dims := 2 }

/-- A concrete extra input for the C7 counterexample. -/
def otherInputC7 : Tensor2 := { size0 := 1, size1 := 1, data := fun _ _ => 0 }

/-- C7 counterexample: for the flipgrid layer with Q = 2, T = 2, the leading
axis of an expanded extra input has size num_sample_sites = 2, while the
grid computed by quad_grid has Q ^ T = 4 sites, so the expansion size does
not equal the number of quadrature sites of the grid, contrary to the claim
for T > 1. -/
theorem claim_C7_counterexample :
    (expandOther layerC7.num_sample_sites otherInputC7).size0 = 2 ∧
    (quadGridRes layerC7.sample_site_dims (realizedXi layerC7)).length = 4 ∧
    (expandOther layerC7.num_sample_sites otherInputC7).size0
      ≠ (quadGridRes layerC7.sample_site_dims (realizedXi layerC7)).length := by
  have e1 : (expandOther layerC7.num_sample_sites otherInputC7).size0 = 2 := rfl
  have e2 : (quadGridRes layerC7.sample_site_dims (realizedXi layerC7)).length = 4 := rfl
  exact ⟨e1, e2, by rw [e1, e2]; omega⟩

/-- Sequential left-to-right concatenation, modelling the single
torch.cat([inputs] + processed_inputs, dim=-1) call. -/
def catAll (acc : Tensor3) : List Tensor3 → Except String Tensor3
  | [] => Except.ok acc
  | t :: ts => (catLastDim acc t).bind (fun r => catAll r ts)

/-- The other_inputs handling of __call__: every extra input is expanded via
unsqueeze(0).expand(num_sample_sites, ...) and concatenated to the inputs
along the feature axis. -/
def otherInputsRun (numSampleSites : ℕ) (inputs : Tensor3) (others : List Tensor2) :
    Except String Tensor3 :=
  catAll inputs (others.map (expandOther numSampleSites))

/-- C7 amended: each extra input is expanded along a new leading axis of size
num_sample_sites = Q (not, in general, the site count of the grid) and is
concatenated to the inputs along the last (feature) axis; the grid of a
flipgrid/freegrid layer has Q ^ T sites, so the expansion matches the grid
site count exactly when T = 1. -/
theorem claim_C7_amended_other_inputs (l : Layer) (inp : Tensor2) (inputs : Tensor3)
    (s i k : ℕ)
    (hs : l.grid_strategy = GridStrategy.flipgrid ∨ l.grid_strategy = GridStrategy.freegrid)
    (hxi : l.xi.length = l.num_sample_sites)
    (h0 : inputs.size0 = l.num_sample_sites) (h1 : inputs.size1 = inp.size0) :
    (expandOther l.num_sample_sites inp).size0 = l.num_sample_sites ∧
    (expandOther l.num_sample_sites inp).data s i k = inp.data i k ∧
    otherInputsRun l.num_sample_sites inputs [inp]
      = Except.ok
          { size0 := inputs.size0, size1 := inputs.size1,
            size2 := inputs.size2 + inp.size1,
            data := fun s i k =>
              if k < inputs.size2 then inputs.data s i k
              else inp.data i (k - inputs.size2) } ∧
    (quadGridRes l.sample_site_dims (realizedXi l)).length
        = l.num_sample_sites ^ l.sample_site_dims ∧
    (l.sample_site_dims = 1 →
      (quadGridRes l.sample_site_dims (realizedXi l)).length = l.num_sample_sites) := by
  have hy : (realizedXi l).length = l.num_sample_sites := by
    rcases hs with hstrat | hstrat
    · rw [realizedXi, hstrat, length_matSub_self_reverse, hxi]
    · rw [realizedXi, hstrat, hxi]
  have hcols : ∀ c ∈ transposeM l.sample_site_dims (realizedXi l),
      c.length = l.num_sample_sites := by
    intro c hc
    simp only [transposeM, List.mem_map] at hc
    obtain ⟨e, _, rfl⟩ := hc
    rw [length_colD, hy]
  have hglen : (quadGridRes l.sample_site_dims (realizedXi l)).length
      = l.num_sample_sites ^ l.sample_site_dims := by
    rw [quadGridRes, length_cartProd_uniform hcols, transposeM, List.length_map,
      List.length_range]
  refine ⟨rfl, rfl, ?_, hglen, ?_⟩
  · rw [otherInputsRun, List.map_cons, List.map_nil, catAll, catLastDim,
      if_pos ⟨h0, h1⟩]
    rfl
  · intro hT
    rw [hglen, hT, pow_one]

/-- Concrete freegrid layer for the C7 amended witness: Q = 2, T = 1, so the
grid has Q ^ 1 = 2 sites, matching the expansion size. -/
def layerC7w : Layer :=
  { num_sample_sites := 2, sample_site_dims := 1, grid_strategy := GridStrategy.freegrid,
    xi := [[5], [6]], input_dims := 2 }

/-- Concrete extra input for the C7 amended witness. -/
def wInpC7 : Tensor2 := { size0 := 1, size1 := 1, data := fun _ _ => 0 }

/-- Concrete quadrature-expanded inputs tensor for the C7 amended witness. -/
def wInputsC7 : Tensor3 := { size0 := 2, size1 := 1, size2 := 1, data := fun _ _ _ => 1 }

/-- Witness for the amended C7 at the concrete freegrid layer with T = 1. -/
theorem claim_C7_amended_other_inputs_witness :
    (expandOther layerC7w.num_sample_sites wInpC7).size0 = layerC7w.num_sample_sites ∧
    (expandOther layerC7w.num_sample_sites wInpC7).data 0 0 0 = wInpC7.data 0 0 ∧
    otherInputsRun layerC7w.num_sample_sites wInputsC7 [wInpC7]
      = Except.ok
          { size0 := wInputsC7.size0, size1 := wInputsC7.size1,
            size2 := wInputsC7.size2 + wInpC7.size1,
            data := fun s i k =>
              if k < wInputsC7.size2 then wInputsC7.data s i k
              else wInpC7.data i (k - wInputsC7.size2) } ∧
    (quadGridRes layerC7w.sample_site_dims (realizedXi layerC7w)).length
        = layerC7w.num_sample_sites ^ layerC7w.sample_site_dims ∧
    (layerC7w.sample_site_dims = 1 →
      (quadGridRes layerC7w.sample_site_dims (realizedXi layerC7w)).length
        = layerC7w.num_sample_sites) :=
  claim_C7_amended_other_inputs layerC7w wInpC7 wInputsC7 0 0 0 (Or.inr rfl) rfl rfl rfl

/-! The debug-mode validation block of __call__ (run only when
settings.debug.on()). -/

/-- Python attribute lookup on an explicit attribute table: a missing
attribute raises AttributeError. -/
def pyGetAttr (attrs : List (String × String)) (attrName : String) : Except String String :=
  match attrs.lookup attrName with
  | some v => Except.ok v
  | none => Except.error ("AttributeError: " ++ attrName)

/-- The attributes of a Python class object that the debug branch can read:
the class name is exposed under __name__ and under nothing else. -/
def classAttrs (className : String) : List (String × String) :=
  [("__name__", className)]

/-- The inputs value reaching the debug checks after preprocessing: either a
tensor carrying its final feature-axis size, or a non-tensor value of some
Python class. -/
inductive DbgInput where
  | tensor (lastDim : ℕ)
  | nonTensor (className : String)

/-- The debug validation of __call__: when debug is on, a non-tensor input
triggers the ValueError branch, whose message formatting reads
inputs.__class__.__Name__ (note the capital N); a tensor whose final feature
size differs from the declared input_dims raises the shape-mismatch
RuntimeError naming both sizes; when debug is off nothing is checked. -/
def debugCheck (debugOn : Bool) (inp : DbgInput) (l : Layer) : Except String Unit :=
  if debugOn then
    match inp with
    | DbgInput.nonTensor c =>
        (pyGetAttr (classAttrs c) "__Name__").bind (fun nm =>
          Except.error
            ("ValueError: `inputs` should either be a MultitaskMultivariateNormal or a Tensor, got "
              ++ nm))
    | DbgInput.tensor lastDim =>
        if lastDim ≠ l.input_dims then
          Except.error
            ("RuntimeError: Input shape did not match self.input_dims. Got total feature dims ["
              ++ toString lastDim ++ "], expected [" ++ toString l.input_dims ++ "]")
        else Except.ok ()
  else Except.ok ()

/-- A concrete layer with input_dims = 2 for the C10 evaluation. -/
def layerC10 : Layer :=
  { num_sample_sites := 3, sample_site_dims := 2, grid_strategy := GridStrategy.flipgrid,
    xi := [[0, 0], [0, 0], [0, 0]], input_dims := 2 }

/-- C10: with debug on, a non-tensor input (here of class list) makes the
wrong-type branch raise an AttributeError from the message formatting
(inputs.__class__.__Name__ is not an attribute), so the raised error does
not name the observed class; the shape branch raises the RuntimeError naming
both the observed size 5 and the expected size 2, a matching size passes,
and with debug off neither check runs. -/
theorem claim_C10_debug_validation :
    debugCheck true (DbgInput.nonTensor "list") layerC10
      = Except.error "AttributeError: __Name__" ∧
    debugCheck true (DbgInput.tensor 5) layerC10
      = Except.error
          "RuntimeError: Input shape did not match self.input_dims. Got total feature dims [5], expected [2]" ∧
    debugCheck true (DbgInput.tensor 2) layerC10 = Except.ok () ∧
    debugCheck false (DbgInput.nonTensor "list") layerC10 = Except.ok () ∧
    debugCheck false (DbgInput.tensor 5) layerC10 = Except.ok () :=
  ⟨rfl, rfl, rfl, rfl, rfl⟩

end PredictiveDeepGP
